import Mathlib

/-!
Verification development for the `toukei` line-counting tool.

The Rust sources are embedded shallowly:
* strings are `List Char` (the tool's delimiters and the inputs of interest
  are ASCII, so Rust byte indices coincide with character indices);
* machine integers (`isize` brace depth) are `Int` with the saturation of
  `isize::saturating_sub` made explicit;
* fallible operations return `Except`;
* the language-rule registry lookups (`get_lang_def`, `get_function_regex`,
  `get_type_from_ext`) and the regex engine are external collaborators of
  the core and are passed in as parameters.
-/

set_option maxRecDepth 100000

namespace Toukei

/-- Characters that the scanner treats specially, named to keep the
embedding readable. -/
def obrace : Char := Char.ofNat 123

def cbrace : Char := Char.ofNat 125

def dquote : Char := Char.ofNat 34

def squote : Char := Char.ofNat 39

/-- `src/langs/lang_type.rs`: the `LangType` enum. -/
inductive LangType where
  | Asciidoc | Astro | C | Clojure | Cpp | Csharp | Css | D | Dart | Elm
  | Erlang | Fsharp | Go | Graphql | H | Hpp | Haskell | Html | Java
  | Javascript | Json | Jsonnet | Julia | Kotlin | Lua | Markdown | Nix
  | Ocaml | Php | Python | Qcl | Qsharp | R | Regex | Ruby | Rust | Sass
  | Scala | Sql | Swift | Tcl | Tex | Toml | Typescript | V | WenYan
  | Xml | Yaml | Zig | Shell | Perl | Text | Unknown
  deriving DecidableEq

/-- Language rule record (`LangDef`), as consumed by the classifier and
lexer: only the comment delimiters participate in classification.
Delimiters are character lists. -/
structure LangDef where
  name : String := ""
  line_comment : Option (List Char) := none
  block_comment : Option (List Char × List Char) := none
  doc_comment : Option (List Char) := none
  deriving DecidableEq

/-- `src/syntax/lex_status.rs`: per-file lexical state `LexCtx`. -/
structure LexCtx where
  in_block_comment : Bool := false
  in_string : Bool := false
  deriving DecidableEq

/-- `src/syntax/classifier.rs`: the `LineKind` enum. -/
inductive LineKind where
  | Blank
  | Comment
  | DocComment
  | Code
  | Mixed
  deriving DecidableEq

/-- `str::find` for a substring pattern: first index at which `pat`
occurs in `s` (`some 0` for the empty pattern, as in Rust). -/
def findSub (s pat : List Char) : Option Nat :=
  match s with
  | [] => if pat = [] then some 0 else none
  | _ :: t => if pat.isPrefixOf s then some 0 else (findSub t pat).map (· + 1)

/-- `str::trim` (both ends, whitespace). -/
def trimL (s : List Char) : List Char :=
  ((s.dropWhile Char.isWhitespace).reverse.dropWhile Char.isWhitespace).reverse

/-- `str::to_lowercase`, character by character (the extensions and
language names being lowercased are ASCII). -/
def str_to_lowercase (s : String) : String :=
  String.mk (s.data.map Char.toLower)

/-- `str::starts_with` on whole strings. -/
def starts_with_str (s p : String) : Bool :=
  p.data.isPrefixOf s.data

/-- `DefaultClassifier::classify`, step 4 of the algorithm: the line is not
blank, we are not consuming an open block comment, and the line does not
start with the line-comment token.  Split out from `classify_default`
mirroring the straight-line fallthrough of the source. -/
def classify_default_block (lang : LangDef) (ctx : LexCtx) (s : List Char) :
    (LineKind × Option (Nat × Nat)) × LexCtx :=
  match lang.block_comment with
  | some (bcStart, bcEnd) =>
    match findSub s bcStart with
    | some pos =>
      let after := s.drop (pos + bcStart.length)
      match findSub after bcEnd with
      | some end_pos =>
        if end_pos + bcEnd.length = after.length ∧ pos = 0 then
          ((LineKind.Comment, none), ctx)
        else
          ((LineKind.Mixed, some (pos + bcEnd.length, s.length)), ctx)
      | none =>
        let ctx2 := { ctx with in_block_comment := true }
        let before := s.take pos
        if trimL before = [] then
          ((LineKind.Comment, none), ctx2)
        else
          ((LineKind.Mixed, some (0, pos)), ctx2)
    | none => ((LineKind.Code, none), ctx)
  | none => ((LineKind.Code, none), ctx)

/-- `DefaultClassifier::classify`, step 3 onwards (line-comment test, then
the block-comment logic). -/
def classify_default_line (lang : LangDef) (ctx : LexCtx) (s : List Char) :
    (LineKind × Option (Nat × Nat)) × LexCtx :=
  match lang.line_comment with
  | some lc =>
    if lc.isPrefixOf s then ((LineKind.Comment, none), ctx)
    else classify_default_block lang ctx s
  | none => classify_default_block lang ctx s

/-- `DefaultClassifier::classify` (`src/syntax/classifier.rs`).  `s` is the
trimmed line; the returned span indexes into `s`. -/
def classify_default (lang : LangDef) (ctx : LexCtx) (s : List Char) :
    (LineKind × Option (Nat × Nat)) × LexCtx :=
  if s = [] then ((LineKind.Blank, none), ctx)
  else
    match ctx.in_block_comment, lang.block_comment with
    | true, some (_, bcEnd) =>
      match findSub s bcEnd with
      | some pos =>
        let ctx2 := { ctx with in_block_comment := false }
        if pos + bcEnd.length = s.length then ((LineKind.Comment, none), ctx2)
        else ((LineKind.Mixed, some (pos + bcEnd.length, s.length)), ctx2)
      | none => ((LineKind.Comment, none), ctx)
    | true, none => classify_default_line lang ctx s
    | false, _ => classify_default_line lang ctx s

/-- The triple double-quote docstring token. -/
def tripleDq : List Char := [dquote, dquote, dquote]

/-- The triple single-quote docstring token. -/
def tripleSq : List Char := [squote, squote, squote]

/-- `PythonClassifier::classify`, docstring-start branch. -/
def classify_python_docstart (ctx : LexCtx) (s : List Char) :
    (LineKind × Option (Nat × Nat)) × LexCtx :=
  let doc_start := if tripleDq.isPrefixOf s then tripleDq else tripleSq
  if 3 < s.length ∧ (findSub (trimL (s.drop 3)) doc_start).isSome then
    ((LineKind.Comment, none), ctx)
  else
    let ctx2 := { ctx with in_string := true }
    let after := s.drop 3
    if ¬ trimL after = [] then ((LineKind.Mixed, some (3, s.length)), ctx2)
    else ((LineKind.Comment, none), ctx2)

/-- `PythonClassifier::classify`, the inline `#`-comment / code tail. -/
def classify_python_inline (ctx : LexCtx) (s : List Char) :
    (LineKind × Option (Nat × Nat)) × LexCtx :=
  match s.findIdx? (fun c => c = '#') with
  | some comment_pos =>
    let before := s.take comment_pos
    if ¬ trimL before = [] then ((LineKind.Mixed, some (0, comment_pos)), ctx)
    else ((LineKind.Comment, none), ctx)
  | none => ((LineKind.Code, none), ctx)

/-- `PythonClassifier::classify`, remaining branches (line comment, inline
`#` comment, code). -/
def classify_python_rest (lang : LangDef) (ctx : LexCtx) (s : List Char) :
    (LineKind × Option (Nat × Nat)) × LexCtx :=
  match lang.line_comment with
  | some lc =>
    if lc.isPrefixOf s then ((LineKind.Comment, none), ctx)
    else classify_python_inline ctx s
  | none => classify_python_inline ctx s

/-- `PythonClassifier::classify` (`src/syntax/classifier.rs`). -/
def classify_python (lang : LangDef) (ctx : LexCtx) (s : List Char) :
    (LineKind × Option (Nat × Nat)) × LexCtx :=
  if s = [] then ((LineKind.Blank, none), ctx)
  else if ctx.in_string then
    if (findSub s tripleDq).isSome ∨ (findSub s tripleSq).isSome then
      let ctx2 := { ctx with in_string := false }
      if s = tripleDq ∨ s = tripleSq then ((LineKind.Comment, none), ctx2)
      else
        -- the source `unwrap`s here; the surrounding guard makes it total
        let end_pos := ((findSub s tripleDq).orElse (fun _ => findSub s tripleSq)).getD 0
        let after := s.drop (end_pos + 3)
        if ¬ trimL after = [] then
          ((LineKind.Mixed, some (end_pos + 3, s.length)), ctx2)
        else ((LineKind.Comment, none), ctx2)
    else ((LineKind.Comment, none), ctx)
  else if tripleDq.isPrefixOf s ∨ tripleSq.isPrefixOf s then
    classify_python_docstart ctx s
  else classify_python_rest lang ctx s

example :
    classify_default { line_comment := some ['/', '/'] } {} ['/', '/', 'x']
      = ((LineKind.Comment, none), {}) := by decide

example :
    classify_default { block_comment := some (['/', '*'], ['*', '/']) } {}
      "a /* c */ b".toList
      = ((LineKind.Mixed, some (4, 11)), {}) := by decide

/-- `src/stats.rs`: the per-file record `FileStat`.  (The `counter.rs` and
`report.rs` snapshots additionally stamp and read a `lang` field, which is
included here.) -/
structure FileStat where
  path : String := ""
  name : String := ""
  size : Nat := 0
  lines : Nat := 0
  code : Nat := 0
  comments : Nat := 0
  blanks : Nat := 0
  functions : Nat := 0
  classes : Nat := 0
  lang : LangType := LangType.Unknown
  deriving DecidableEq

/-- `src/syntax/lex_status.rs`: the brace-depth extent tracker state
`FnCtx` (`depth` and `prev` are `isize` in the source). -/
structure FnCtx where
  in_function : Bool := false
  prev : Int := 0
  depth : Int := 0
  deriving DecidableEq

/-- `isize::MIN`. -/
def isizeMin : Int := -(2 ^ 63)

/-- `isize::saturating_sub(1)`: plain decrement saturating at
`isize::MIN` (not at 0). -/
def isizeSatSub1 (d : Int) : Int := max (d - 1) isizeMin

/-- One step of the brace scan of `DefaultLexer::update_fn_ctx`. -/
def braceStep (d : Int) (c : Char) : Int :=
  if c = obrace then d + 1
  else if c = cbrace then isizeSatSub1 d
  else d

/-- `DefaultLexer::update_fn_ctx` (`src/syntax/lexer.rs`).  `is_match`
stands for `RegexSet::is_match` of the language's function patterns. -/
def update_fn_ctx (raw : List Char) (is_match : List Char → Bool)
    (ctx : FnCtx) : FnCtx :=
  let ctx1 :=
    if ¬ ctx.in_function then
      if is_match raw then { ctx with in_function := true, depth := 0 } else ctx
    else ctx
  let d := raw.foldl braceStep ctx1.depth
  { ctx1 with depth := d, prev := d }

/-- One iteration of the line loop of `DefaultLexer::lex`. -/
def default_lex_step (lang : LangDef)
    (function_regexes : Option (List Char → Bool))
    (st : FileStat × LexCtx × FnCtx) (raw : List Char) :
    FileStat × LexCtx × FnCtx :=
  let stat := st.1
  let ctx := st.2.1
  let fn_ctx := st.2.2
  let trimmed := trimL raw
  let fn_ctx :=
    if fn_ctx.in_function ∧ fn_ctx.prev = 0 then
      { fn_ctx with in_function := false }
    else fn_ctx
  let res := classify_default lang ctx trimmed
  let kind := res.1.1
  let pos := res.1.2
  let ctx := res.2
  let stat := { stat with lines := stat.lines + 1 }
  let out : FileStat × FnCtx :=
    match kind with
    | LineKind.Blank => ({ stat with blanks := stat.blanks + 1 }, fn_ctx)
    | LineKind.Comment => ({ stat with comments := stat.comments + 1 }, fn_ctx)
    | LineKind.DocComment => ({ stat with comments := stat.comments + 1 }, fn_ctx)
    | LineKind.Code =>
      let fn_ctx :=
        match function_regexes with
        | some rx => update_fn_ctx trimmed rx fn_ctx
        | none => fn_ctx
      ({ stat with code := stat.code + 1 }, fn_ctx)
    | LineKind.Mixed =>
      let fn_ctx :=
        match pos, function_regexes with
        | some se, some rx =>
          update_fn_ctx ((trimmed.drop se.1).take (se.2 - se.1)) rx fn_ctx
        | _, _ => fn_ctx
      ({ stat with code := stat.code + 1 }, fn_ctx)
  let stat := out.1
  let fn_ctx := out.2
  let stat :=
    if fn_ctx.in_function then { stat with functions := stat.functions + 1 }
    else stat
  (stat, ctx, fn_ctx)

/-- The line loop of `DefaultLexer::lex` over the decoded lines of a file
(registry lookups already resolved to `lang` / `function_regexes`). -/
def default_lex (lang : LangDef)
    (function_regexes : Option (List Char → Bool))
    (lines : List (List Char)) : FileStat :=
  (lines.foldl (default_lex_step lang function_regexes) ({}, {}, {})).1

/-- `src/syntax/lex_status.rs`: the indentation tracker state `PyCtx`. -/
structure PyCtx where
  in_fn : Bool := false
  fn_def_line : Bool := false
  base_indent : Nat := 0
  cur_indent : Nat := 0
  deriving DecidableEq

/-- `calc_indent` (`src/syntax/lexer.rs`): indentation columns of a line,
one tab = 4 columns. -/
def calc_indent (raw : List Char) : Nat :=
  ((raw.takeWhile Char.isWhitespace).map
    (fun c => if c = '\t' then 4 else 1)).sum

/-- One iteration of the line loop of `PythonLexer::lex`. -/
def python_lex_step (lang : LangDef) (fn_res : Option (List Char → Bool))
    (st : FileStat × LexCtx × PyCtx) (raw : List Char) :
    FileStat × LexCtx × PyCtx :=
  let stat := st.1
  let ctx := st.2.1
  let py := st.2.2
  let trimmed := trimL raw
  -- step 0: the previous line was a function definition
  let py :=
    if py.fn_def_line then
      { py with fn_def_line := false, in_fn := true, base_indent := py.cur_indent }
    else py
  -- step 1: classify the line
  let res := classify_python lang ctx trimmed
  let kind := res.1.1
  let pos := res.1.2
  let ctx := res.2
  let stat := { stat with lines := stat.lines + 1 }
  let out : FileStat × PyCtx :=
    match kind with
    | LineKind.Blank => ({ stat with blanks := stat.blanks + 1 }, py)
    | LineKind.Comment => ({ stat with comments := stat.comments + 1 }, py)
    | LineKind.DocComment => ({ stat with comments := stat.comments + 1 }, py)
    | _ =>
      let stat := { stat with code := stat.code + 1 }
      let code_slice :=
        match kind, pos with
        | LineKind.Mixed, some se => (trimmed.drop se.1).take (se.2 - se.1)
        | LineKind.Mixed, none => (trimmed.drop 0).take 0
        | _, _ => trimmed
      match fn_res with
      | some re =>
        if re code_slice then
          ({ stat with functions := stat.functions + 1 },
           { py with fn_def_line := true })
        else (stat, py)
      | none => (stat, py)
  let stat := out.1
  let py := out.2
  -- step 2: indentation bookkeeping (skipped for blank / pure-# lines)
  if trimmed = [] ∨ ['#'].isPrefixOf trimmed then (stat, ctx, py)
  else
    let indent := calc_indent raw
    let py : PyCtx := { py with cur_indent := indent }
    let py : PyCtx :=
      if py.in_fn ∧ indent ≤ py.base_indent then { py with in_fn := false }
      else py
    let stat :=
      if py.in_fn then { stat with functions := stat.functions + 1 } else stat
    (stat, ctx, py)

/-- The line loop of `PythonLexer::lex`. -/
def python_lex (lang : LangDef) (fn_res : Option (List Char → Bool))
    (lines : List (List Char)) : FileStat :=
  (lines.foldl (python_lex_step lang fn_res) ({}, {}, {})).1

/-- `MdLexer::lex` (`src/syntax/lexer.rs`): only the line count is set. -/
def md_lex (lines : List (List Char)) : FileStat :=
  { lines := lines.length }

/-- External registry lookups consumed by the lexers and the counter
(`get_lang_def`, `get_function_regex`, `get_type_from_ext` of
`src/langs/registry.rs`; the regex engine is abstracted to a match
predicate). -/
structure Registry where
  get_lang_def : LangType → Option LangDef
  get_function_regex : LangType → Option (List Char → Bool)
  get_type_from_ext : String → Option LangType

/-- `DefaultLexer::lex` including its registry lookups. -/
def default_lexer_lex (reg : Registry) (lang_type : LangType)
    (lines : List (List Char)) : Except String FileStat :=
  match reg.get_lang_def lang_type with
  | none => Except.error "Language not supported"
  | some d => Except.ok (default_lex d (reg.get_function_regex lang_type) lines)

/-- `PythonLexer::lex` including its registry lookups. -/
def python_lexer_lex (reg : Registry) (lines : List (List Char)) :
    Except String FileStat :=
  match reg.get_lang_def LangType.Python with
  | none => Except.error "Python language not supported"
  | some d => Except.ok (python_lex d (reg.get_function_regex LangType.Python) lines)

/-- `MdLexer::lex` as a `Lexer`. -/
def md_lexer_lex (lines : List (List Char)) : Except String FileStat :=
  Except.ok (md_lex lines)

/-- `LexerFactory::get_lexer` (`src/syntax/mod.rs`). -/
def get_lexer (reg : Registry) (lang_type : LangType) :
    Option (List (List Char) → Except String FileStat) :=
  match lang_type with
  | LangType.Python => some (python_lexer_lex reg)
  | LangType.Markdown => some md_lexer_lex
  | LangType.Unknown => none
  | _ => some (default_lexer_lex reg lang_type)

/-- The `LangDef` shape shared by the C-like languages of the registry. -/
def cLikeDef : LangDef :=
  { name := "C"
    line_comment := some ['/', '/']
    block_comment := some (['/', '*'], ['*', '/'])
    doc_comment := some ['/', '/', '/'] }

/-- A match predicate standing for the C function-signature regexes on the
inputs of the `count_simple_c_like` unit test. -/
def cTestMatch (s : List Char) : Bool :=
  "int add".toList.isPrefixOf s || "int main".toList.isPrefixOf s

example :
    (default_lex cLikeDef (some cTestMatch)
      ["".toList,
       "// comment".toList,
       "#include <stdio.h>".toList,
       "".toList,
       "/* block".toList,
       "   second".toList,
       "*/".toList,
       "int add(int a, int b) \x7b\x7d // decl".toList,
       "".toList,
       "int main() \x7b".toList,
       "    printf(hello);  // line".toList,
       "    return 0;".toList,
       "\x7d".toList]).lines = 13 := by decide

example :
    (default_lex cLikeDef (some cTestMatch)
      ["".toList,
       "// comment".toList,
       "#include <stdio.h>".toList,
       "".toList,
       "/* block".toList,
       "   second".toList,
       "*/".toList,
       "int add(int a, int b) \x7b\x7d // decl".toList,
       "".toList,
       "int main() \x7b".toList,
       "    printf(hello);  // line".toList,
       "    return 0;".toList,
       "\x7d".toList]).functions = 5 := by decide

example :
    (default_lex cLikeDef (some cTestMatch)
      ["".toList, "// comment".toList, "#include <stdio.h>".toList,
       "".toList, "/* block".toList, "   second".toList, "*/".toList,
       "int add(int a, int b) \x7b\x7d // decl".toList, "".toList,
       "int main() \x7b".toList, "    printf(hello);  // line".toList,
       "    return 0;".toList, "\x7d".toList]).blanks = 3 := by decide

example :
    (default_lex cLikeDef (some cTestMatch)
      ["".toList, "// comment".toList, "#include <stdio.h>".toList,
       "".toList, "/* block".toList, "   second".toList, "*/".toList,
       "int add(int a, int b) \x7b\x7d // decl".toList, "".toList,
       "int main() \x7b".toList, "    printf(hello);  // line".toList,
       "    return 0;".toList, "\x7d".toList]).comments = 4 := by decide

example :
    (default_lex cLikeDef (some cTestMatch)
      ["".toList, "// comment".toList, "#include <stdio.h>".toList,
       "".toList, "/* block".toList, "   second".toList, "*/".toList,
       "int add(int a, int b) \x7b\x7d // decl".toList, "".toList,
       "int main() \x7b".toList, "    printf(hello);  // line".toList,
       "    return 0;".toList, "\x7d".toList]).code = 6 := by decide

/-- `src/counter.rs`: the `CounterError` enum. -/
inductive CounterError where
  | IoError (msg : String)
  | LexError (msg : String)
  | BinaryFile
  deriving DecidableEq

/-- `Display for CounterError` (`src/counter.rs`). -/
def counter_error_display : CounterError → String
  | CounterError.IoError msg => "IO Error: " ++ msg
  | CounterError.LexError msg => "Lexing Error: " ++ msg
  | CounterError.BinaryFile => "Binary file detected"

/-- The pieces of a `std::path::Path` value that `Counter::count` reads. -/
structure RPath where
  display : String
  file_name : Option String
  extension : Option String
  deriving DecidableEq

/-- `Counter::is_binary_file` (`src/counter.rs`): sniff up to the first
1024 bytes for a NUL byte; an empty read is not binary. -/
def is_binary_file (bytes : List Nat) : Bool :=
  let n := min 1024 bytes.length
  if n = 0 then false
  else (bytes.take n).any (fun b => b = 0)

/-- The environment `Counter::count` runs in: registry lookups, the file
system (`File::open`, `none` = cannot open), and the lossy decoding of a
byte stream into lines (`LossyReader` + `BufRead::lines`). -/
structure CountEnv where
  reg : Registry
  open_file : RPath → Except String (List Nat)
  decode_lines : List Nat → List (List Char)

/-- `Counter::count` (`src/counter.rs`). -/
def counter_count (env : CountEnv) (path : RPath) :
    Except CounterError FileStat :=
  let ext := str_to_lowercase (path.extension.getD "")
  match env.reg.get_type_from_ext ext with
  | none =>
    Except.error (CounterError.LexError ("Unknown language for extension: " ++ ext))
  | some lang_type =>
    match env.open_file path with
    | Except.error e => Except.error (CounterError.IoError e)
    | Except.ok bytes =>
      if is_binary_file bytes then Except.error CounterError.BinaryFile
      else
        match get_lexer env.reg lang_type with
        | none => Except.error (CounterError.LexError "Unknown language")
        | some lexer =>
          match lexer (env.decode_lines bytes) with
          | Except.error e => Except.error (CounterError.LexError e)
          | Except.ok stat =>
            Except.ok { stat with
              lang := lang_type
              path := path.display
              name := path.file_name.getD "" }

/-- `src/stats.rs`: the per-language record `LangStat`. -/
structure LangStat where
  lang : LangType := LangType.Unknown
  files : Nat := 0
  lines : Nat := 0
  code : Nat := 0
  comments : Nat := 0
  blanks : Nat := 0
  functions : Nat := 0
  classes : Nat := 0
  stats : List FileStat := []
  deriving DecidableEq

/-- `LangStat::new`. -/
def langstat_new (lang : LangType) : LangStat := { lang := lang }

/-- `LangStat::add` (`src/stats.rs`): note that the source sums every
aggregate field except `classes`, which it leaves untouched. -/
def langstat_add (a other : LangStat) : LangStat :=
  { a with
    files := a.files + other.files
    lines := a.lines + other.lines
    code := a.code + other.code
    comments := a.comments + other.comments
    blanks := a.blanks + other.blanks
    functions := a.functions + other.functions
    stats := a.stats ++ other.stats }

/-- `src/report.rs`: `Report.inner` is a `HashMap<LangType, LangStat>`,
modelled as a function with unique keys (`none` = key absent). -/
def Report : Type := LangType → Option LangStat

/-- `Report::new`. -/
def report_new : Report := fun _ => none

/-- `Report::get_by_lang`. -/
def report_get_by_lang (r : Report) (lang : LangType) : Option LangStat :=
  r lang

/-- `Report::add` (`src/report.rs`): `entry(lang).or_insert(LangStat::new)`
followed by in-place accumulation of every field and a push of the
`FileStat`. -/
def report_add (r : Report) (stat : FileStat) : Report :=
  fun lt =>
    if lt = stat.lang then
      let ls := (r stat.lang).getD (langstat_new stat.lang)
      some { ls with
        files := ls.files + 1
        lines := ls.lines + stat.lines
        code := ls.code + stat.code
        comments := ls.comments + stat.comments
        blanks := ls.blanks + stat.blanks
        functions := ls.functions + stat.functions
        classes := ls.classes + stat.classes
        stats := ls.stats ++ [stat] }
    else r lt

/-- The aggregate totals of one language key of a `Report`:
(files, lines, code, comments, blanks, functions, classes). -/
def lang_totals (r : Report) (lt : LangType) :
    Option (Nat × Nat × Nat × Nat × Nat × Nat × Nat) :=
  (r lt).map (fun ls =>
    (ls.files, ls.lines, ls.code, ls.comments, ls.blanks, ls.functions,
     ls.classes))

/-- The error message built by `FileCounter::process` for a fatal per-file
error (`format!("Failed to count file {:?}: {}", file_path, e)`). -/
def sync_err_msg (dbg : String) (e : CounterError) : String :=
  "Failed to count file " ++ dbg ++ ": " ++ counter_error_display e

/-- The per-file mapping of the parallel map of `FileCounter::process`:
a success is kept, a `BinaryFile` becomes a logged skip (`Ok(None)`), any
other error is rendered fatal. -/
def count_result_to_sync (dbg : String) (r : Except CounterError FileStat) :
    Except String (Option FileStat) :=
  match r with
  | Except.ok stat => Except.ok (some stat)
  | Except.error CounterError.BinaryFile => Except.ok none
  | Except.error e => Except.error (sync_err_msg dbg e)

/-- The serial draining loop of `FileCounter::process`: results are
inspected in submission order; skips are dropped, the first error is
returned. -/
def file_counter_drain (report : Report) :
    List (Except String (Option FileStat)) → Except String Report
  | [] => Except.ok report
  | r :: rest =>
    match r with
    | Except.ok (some stat) => file_counter_drain (report_add report stat) rest
    | Except.ok none => file_counter_drain report rest
    | Except.error e => Except.error e

/-- `FileCounter::process` (`src/fc.rs`), after discovery: the worker pool
computes one result per file (submission order is preserved by the
parallel collect), then the results are drained serially into a fresh
report.  `count` stands for `Counter::count` and `dbg` for the debug
rendering of the path. -/
def file_counter_process {P : Type} (paths : List P)
    (count : P → Except CounterError FileStat) (dbg : P → String) :
    Except String Report :=
  file_counter_drain report_new
    (paths.map (fun p => count_result_to_sync (dbg p) (count p)))

/-- The successful per-file records of a run: `AsyncFileCounter::process`
merges exactly these (every `BinaryFile` and every other error is logged
and skipped). -/
def async_successes {P : Type} (paths : List P)
    (count : P → Except CounterError FileStat) : List FileStat :=
  paths.filterMap (fun p =>
    match count p with
    | Except.ok stat => some stat
    | Except.error _ => none)

/-- The report built by `AsyncFileCounter::process` once the scheduler has
merged the successful records in some order: each merge step is
`Report::add` under the report mutex. -/
def async_report (merged : List FileStat) : Report :=
  merged.foldl report_add report_new

/-- `strum(Display)` on `LangType`: each variant renders as its name. -/
def lang_to_string : LangType → String
  | LangType.Asciidoc => "Asciidoc" | LangType.Astro => "Astro"
  | LangType.C => "C" | LangType.Clojure => "Clojure"
  | LangType.Cpp => "Cpp" | LangType.Csharp => "Csharp"
  | LangType.Css => "Css" | LangType.D => "D"
  | LangType.Dart => "Dart" | LangType.Elm => "Elm"
  | LangType.Erlang => "Erlang" | LangType.Fsharp => "Fsharp"
  | LangType.Go => "Go" | LangType.Graphql => "Graphql"
  | LangType.H => "H" | LangType.Hpp => "Hpp"
  | LangType.Haskell => "Haskell" | LangType.Html => "Html"
  | LangType.Java => "Java" | LangType.Javascript => "Javascript"
  | LangType.Json => "Json" | LangType.Jsonnet => "Jsonnet"
  | LangType.Julia => "Julia" | LangType.Kotlin => "Kotlin"
  | LangType.Lua => "Lua" | LangType.Markdown => "Markdown"
  | LangType.Nix => "Nix" | LangType.Ocaml => "Ocaml"
  | LangType.Php => "Php" | LangType.Python => "Python"
  | LangType.Qcl => "Qcl" | LangType.Qsharp => "Qsharp"
  | LangType.R => "R" | LangType.Regex => "Regex"
  | LangType.Ruby => "Ruby" | LangType.Rust => "Rust"
  | LangType.Sass => "Sass" | LangType.Scala => "Scala"
  | LangType.Sql => "Sql" | LangType.Swift => "Swift"
  | LangType.Tcl => "Tcl" | LangType.Tex => "Tex"
  | LangType.Toml => "Toml" | LangType.Typescript => "Typescript"
  | LangType.V => "V" | LangType.WenYan => "WenYan"
  | LangType.Xml => "Xml" | LangType.Yaml => "Yaml"
  | LangType.Zig => "Zig" | LangType.Shell => "Shell"
  | LangType.Perl => "Perl" | LangType.Text => "Text"
  | LangType.Unknown => "Unknown"

/-- Every `LangType` variant, in declaration order. -/
def langTypeVariants : List LangType :=
  [LangType.Asciidoc, LangType.Astro, LangType.C, LangType.Clojure,
   LangType.Cpp, LangType.Csharp, LangType.Css, LangType.D, LangType.Dart,
   LangType.Elm, LangType.Erlang, LangType.Fsharp, LangType.Go,
   LangType.Graphql, LangType.H, LangType.Hpp, LangType.Haskell,
   LangType.Html, LangType.Java, LangType.Javascript, LangType.Json,
   LangType.Jsonnet, LangType.Julia, LangType.Kotlin, LangType.Lua,
   LangType.Markdown, LangType.Nix, LangType.Ocaml, LangType.Php,
   LangType.Python, LangType.Qcl, LangType.Qsharp, LangType.R,
   LangType.Regex, LangType.Ruby, LangType.Rust, LangType.Sass,
   LangType.Scala, LangType.Sql, LangType.Swift, LangType.Tcl,
   LangType.Tex, LangType.Toml, LangType.Typescript, LangType.V,
   LangType.WenYan, LangType.Xml, LangType.Yaml, LangType.Zig,
   LangType.Shell, LangType.Perl, LangType.Text, LangType.Unknown]

/-- `SUPPORTED_LANGUAGES` (`src/langs/registry.rs`):
`LangType::VARIANTS`, i.e. the variant names. -/
def supported_languages : List String := langTypeVariants.map lang_to_string

/-- `src/config.rs`: the `Config` fields the walker and the pipelines
consume. -/
structure Config where
  paths : List String := []
  types : List String := []
  ignore_blanks : Bool := false
  ignore_comments : Bool := false
  exclude_files : List String := []
  num_workers : Nat := 0
  deriving DecidableEq

/-- `Config::new` (`src/config.rs`): default root path `"."` and every
supported language name enabled. -/
def config_new : Config :=
  { paths := ["."], types := supported_languages }

/-- A directory tree, the object a root path denotes. -/
inductive FsEntry where
  | file (name : String)
  | dir (name : String) (children : List FsEntry)

/-- The name of an entry. -/
def FsEntry.entry_name : FsEntry → String
  | FsEntry.file n => n
  | FsEntry.dir n _ => n

/-- `Path::components` of an entry path, as the list of components
(the root path's own components included). -/
abbrev RawPath := List String

/-- The components of an exclude-pattern string (`Path::new(excl)`),
splitting on the separator. -/
def path_components (s : String) : List String :=
  (s.splitOn "/").filter (fun c => ¬ c = "")

/-- `Path::ends_with`: component-wise suffix match. -/
def path_ends_with (p : RawPath) (excl : String) : Bool :=
  (path_components excl).isSuffixOf p

/-- The `filter_entry` closure of `FileReader::walk_dir`
(`src/walker.rs`): the root passes; a directory is pruned when its name
starts with `'.'` or matches an exclude pattern; files pass here. -/
def filter_entry_pred (cfg : Config) (root p : RawPath) (isDir : Bool) :
    Bool :=
  if p = root then true
  else if isDir then
    let nameBad :=
      match p.getLast? with
      | some name => starts_with_str name "."
      | none => false
    if nameBad then false
    else ¬ (cfg.exclude_files.any (fun excl =>
      ¬ excl = "" && path_ends_with p excl))
  else true

/-- `Path::extension` of a file name: the part after the last `'.'`,
absent when there is no `'.'` or the only `'.'` is the leading one. -/
def ext_of (name : String) : Option String :=
  let cs := name.toList
  match (List.range cs.length).filter (fun i => cs.get? i = some '.') with
  | [] => none
  | is =>
    match is.getLast? with
    | some 0 => none
    | some i => some (String.mk (cs.drop (i + 1)))
    | none => none

/-- The lowercased separator-joined rendering of a path
(`to_string_lossy().to_lowercase()`). -/
def path_str_lower (p : RawPath) : List Char :=
  ((String.intercalate "/" p).toList).map Char.toLower

/-- `FileReader::include_entry` (`src/walker.rs`). -/
def include_entry (cfg : Config) (reg : Registry) (p : RawPath)
    (isDir : Bool) : Bool :=
  -- only files are kept
  if isDir then false
  -- any path component starting with '.' excludes the entry
  else if p.any (fun comp => starts_with_str comp ".") then false
  -- configured exclusions: component-suffix match or substring containment
  else if cfg.exclude_files.any (fun excl =>
      ¬ excl = "" &&
      (path_ends_with p excl ||
       (findSub (path_str_lower p) ((str_to_lowercase excl).toList)).isSome)) then false
  else
    -- keep only enabled languages, resolved from the extension
    match (p.getLast?.getD "") |> ext_of with
    | some ext =>
      let lang := (reg.get_type_from_ext (str_to_lowercase ext)).getD LangType.Unknown
      match lang with
      | LangType.Unknown => false
      | _ => cfg.types.contains (str_to_lowercase (lang_to_string lang))
    | none => false

mutual

/-- The pre-order traversal of `WalkDir` with `filter_entry` pruning:
every surviving entry is yielded as (path, is-directory). -/
def walk_entry (cfg : Config) (root : RawPath) :
    FsEntry → RawPath → List (RawPath × Bool)
  | FsEntry.file _, selfPath =>
    if filter_entry_pred cfg root selfPath false then [(selfPath, false)]
    else []
  | FsEntry.dir _ children, selfPath =>
    if filter_entry_pred cfg root selfPath true then
      (selfPath, true) :: walk_children cfg root children selfPath
    else []

/-- Traversal of a directory's children. -/
def walk_children (cfg : Config) (root : RawPath) :
    List FsEntry → RawPath → List (RawPath × Bool)
  | [], _ => []
  | c :: cs, parent =>
    walk_entry cfg root c (parent ++ [c.entry_name]) ++
      walk_children cfg root cs parent

end

/-- `FileReader::walk_dir` (`src/walker.rs`): traverse from the root path
(the tree `t` is the object that path denotes), prune with
`filter_entry`, keep the entries accepted by `include_entry`, and return
their paths. -/
def walk_dir (cfg : Config) (reg : Registry) (rootPath : RawPath)
    (t : FsEntry) : List RawPath :=
  ((walk_entry cfg rootPath t rootPath).filter
    (fun pd => include_entry cfg reg pd.1 pd.2)).map (fun pd => pd.1)

/-! ## Spec-side definitions and concrete fixtures -/

/-- Number of opening braces in a code text. -/
def opensCount (t : List Char) : Nat := (t.filter (fun c => c = obrace)).length

/-- Number of closing braces in a code text. -/
def closesCount (t : List Char) : Nat := (t.filter (fun c => c = cbrace)).length

/-- The depth the brace scan starts from: `update_fn_ctx` resets to 0 on
entering function mode, otherwise keeps the stored depth. -/
def fn_entry_depth (raw : List Char) (is_match : List Char → Bool)
    (ctx : FnCtx) : Int :=
  if ctx.in_function = false ∧ is_match raw then 0 else ctx.depth

/-- A concrete Rust `FileStat` with one counted class. -/
def fsClassA : FileStat :=
  { lang := LangType.Rust, lines := 2, code := 1, blanks := 1, classes := 1 }

/-- A second concrete Rust `FileStat` with one counted class. -/
def fsClassB : FileStat :=
  { lang := LangType.Rust, lines := 3, code := 2, comments := 1, classes := 1 }

/-- The per-language record obtained by merging exactly one `FileStat`
into a fresh report (one partition block of a partitioned merge). -/
def singletonLangStat (stat : FileStat) : LangStat :=
  ((report_add report_new stat) stat.lang).getD (langstat_new stat.lang)

/-- A concrete registry environment for witnesses: every language maps to
the C-like rule set, no function regexes, `rs` resolves to Rust. -/
def regW : Registry :=
  { get_lang_def := fun _ => some cLikeDef
    get_function_regex := fun _ => none
    get_type_from_ext := fun e => if e = "rs" then some LangType.Rust else none }

/-- A five-path file-system environment exercising every branch of
`Counter::count`. -/
def envW : CountEnv :=
  { reg :=
      { get_lang_def := fun _ => some cLikeDef
        get_function_regex := fun _ => none
        get_type_from_ext := fun e =>
          if e = "rs" then some LangType.Rust
          else if e = "uu" then some LangType.Unknown
          else none }
    open_file := fun p =>
      if p.display = "io.rs" then Except.error "boom"
      else if p.display = "bin.rs" then Except.ok [65, 0, 66]
      else Except.ok [65, 66]
    decode_lines := fun _ => [['a', 'b']] }

/-- The concrete paths of the witness environment. -/
def pZZ : RPath := { display := "x.zz", file_name := some "x.zz", extension := some "zz" }

def pIO : RPath := { display := "io.rs", file_name := some "io.rs", extension := some "rs" }

def pBin : RPath := { display := "bin.rs", file_name := some "bin.rs", extension := some "rs" }

def pUU : RPath := { display := "a.uu", file_name := some "a.uu", extension := some "uu" }

def pOk : RPath := { display := "a.rs", file_name := some "a.rs", extension := some "rs" }

/-- A per-file outcome function for the pipeline witnesses: path 0
succeeds, path 1 fails with an `IoError`, path 2 succeeds. -/
def countW : Nat → Except CounterError FileStat
  | 0 => Except.ok fsClassA
  | 1 => Except.error (CounterError.IoError "boom")
  | _ => Except.ok fsClassB

/-- A per-file outcome function whose path 1 is a binary file. -/
def countBinW : Nat → Except CounterError FileStat
  | 0 => Except.ok fsClassA
  | 1 => Except.error CounterError.BinaryFile
  | _ => Except.ok fsClassB

/-- A per-file outcome function that always fails with an `IoError`. -/
def countErrW : Nat → Except CounterError FileStat :=
  fun _ => Except.error (CounterError.IoError "boom")

/-- Spec-side tracker of §4.2 (brace-depth policy), written from the
spec's words: if not currently inside a function, test the code text
against the signature patterns; on match enter function mode with depth
0.  Regardless of entry, scan the code text left-to-right updating the
depth for each brace, and store the resulting depth as `prev_depth`. -/
def spec_fn_enter_scan (is_match : List Char → Bool) (t : List Char)
    (fc : FnCtx) : FnCtx :=
  let entered :=
    if fc.in_function = false ∧ is_match t then
      { in_function := true, prev := fc.prev, depth := 0 }
    else fc
  let d := t.foldl braceStep entered.depth
  { entered with depth := d, prev := d }

/-- The per-line code texts the extent tracker consumes, derived from the
shared classifier state machine: the trimmed line for a `Code` line, the
span slice for a `Mixed` line carrying a span, nothing otherwise. -/
def code_texts (lang : LangDef) : LexCtx → List (List Char) → List (Option (List Char))
  | _, [] => []
  | ctx, raw :: rest =>
    let trimmed := trimL raw
    let res := classify_default lang ctx trimmed
    let ct : Option (List Char) :=
      match res.1.1, res.1.2 with
      | LineKind.Code, _ => some trimmed
      | LineKind.Mixed, some se => some ((trimmed.drop se.1).take (se.2 - se.1))
      | _, _ => none
    ct :: code_texts lang res.2 rest

/-- Spec-side `functions` count of §4.2, written from the claim's words:
at the start of each line, exit function mode if still in it with
`prev_depth = 0`; enter on a signature match of the line's code text and
scan its braces; credit the line (one `functions` increment) whenever the
tracker is in function mode at the end of processing the line. -/
def spec_functions_count (is_match : List Char → Bool) :
    FnCtx → List (Option (List Char)) → Nat
  | _, [] => 0
  | fc, ct :: rest =>
    let fc1 :=
      if fc.in_function ∧ fc.prev = 0 then { fc with in_function := false }
      else fc
    let fc2 :=
      match ct with
      | some t => spec_fn_enter_scan is_match t fc1
      | none => fc1
    (if fc2.in_function then 1 else 0) + spec_functions_count is_match fc2 rest

/-- A walker configuration for witnesses: Rust enabled (lowercased, as
the walker compares), no exclusions. -/
def cfgW : Config := { paths := ["src"], types := ["rust"] }

/-- A two-level tree holding one Rust file. -/
def tree0 : FsEntry := FsEntry.dir "src" [FsEntry.file "a.rs"]

/-! ## Helper lemmas -/

theorem classify_default_block_ne_doc (lang : LangDef) (ctx : LexCtx)
    (s : List Char) :
    (classify_default_block lang ctx s).1.1 ≠ LineKind.DocComment := by
  unfold classify_default_block
  repeat' first | split | dsimp only
  all_goals simp

theorem classify_default_line_ne_doc (lang : LangDef) (ctx : LexCtx)
    (s : List Char) :
    (classify_default_line lang ctx s).1.1 ≠ LineKind.DocComment := by
  unfold classify_default_line
  repeat' first | split | dsimp only
  all_goals first
    | exact classify_default_block_ne_doc lang ctx s
    | simp

theorem classify_default_ne_doc (lang : LangDef) (ctx : LexCtx)
    (s : List Char) :
    (classify_default lang ctx s).1.1 ≠ LineKind.DocComment := by
  unfold classify_default
  repeat' first | split | dsimp only
  all_goals first
    | exact classify_default_line_ne_doc lang ctx s
    | simp

theorem classify_python_inline_ne_doc (ctx : LexCtx) (s : List Char) :
    (classify_python_inline ctx s).1.1 ≠ LineKind.DocComment := by
  unfold classify_python_inline
  repeat' first | split | dsimp only
  all_goals simp

theorem classify_python_rest_ne_doc (lang : LangDef) (ctx : LexCtx)
    (s : List Char) :
    (classify_python_rest lang ctx s).1.1 ≠ LineKind.DocComment := by
  unfold classify_python_rest
  repeat' first | split | dsimp only
  all_goals first
    | exact classify_python_inline_ne_doc ctx s
    | simp

theorem classify_python_ne_doc (lang : LangDef) (ctx : LexCtx)
    (s : List Char) :
    (classify_python lang ctx s).1.1 ≠ LineKind.DocComment := by
  unfold classify_python classify_python_docstart
  repeat' first | split | dsimp only
  all_goals first
    | exact classify_python_rest_ne_doc lang ctx s
    | simp

/-! ## C9 -/

/-- C9: for every input line, language rule and lexical state, neither
`DefaultClassifier::classify` nor `PythonClassifier::classify` ever
returns the `DocComment` classification (so the lexers, which count
`Comment` and `DocComment` alike into `comments`, count all doc comments
there). -/
theorem classifiers_never_return_doccomment :
    ∀ (lang : LangDef) (ctx : LexCtx) (s : List Char),
      (classify_default lang ctx s).1.1 ≠ LineKind.DocComment ∧
      (classify_python lang ctx s).1.1 ≠ LineKind.DocComment :=
  fun lang ctx s =>
    ⟨classify_default_ne_doc lang ctx s, classify_python_ne_doc lang ctx s⟩

/-! ## C4 -/

theorem closesCount_cons_ne (c : Char) (t : List Char) (h : ¬ c = cbrace) :
    closesCount (c :: t) = closesCount t := by
  simp [closesCount, h]

theorem closesCount_cons_self (t : List Char) :
    closesCount (cbrace :: t) = closesCount t + 1 := by
  simp [closesCount]

theorem opensCount_cons_ne (c : Char) (t : List Char) (h : ¬ c = obrace) :
    opensCount (c :: t) = opensCount t := by
  simp [opensCount, h]

theorem opensCount_cons_self (t : List Char) :
    opensCount (obrace :: t) = opensCount t + 1 := by
  simp [opensCount]

theorem braceFold_no_sat :
    ∀ (t : List Char) (d0 : Int), isizeMin + closesCount t ≤ d0 →
      t.foldl braceStep d0 = d0 + opensCount t - closesCount t := by
  intro t
  induction t with
  | nil => intro d0 _; simp [opensCount, closesCount]
  | cons c t ih =>
    intro d0 h
    rw [List.foldl_cons]
    by_cases hc : c = obrace
    · subst hc
      have hne : ¬ obrace = cbrace := by decide
      rw [closesCount_cons_ne _ _ hne] at h
      rw [show braceStep d0 obrace = d0 + 1 by simp [braceStep]]
      rw [ih (d0 + 1) (by omega)]
      rw [opensCount_cons_self, closesCount_cons_ne _ _ hne]
      push_cast
      ring
    · by_cases hcc : c = cbrace
      · subst hcc
        rw [closesCount_cons_self] at h
        have hsat : braceStep d0 cbrace = d0 - 1 := by
          have hb : ¬ cbrace = obrace := by decide
          simp [braceStep, hb, isizeSatSub1]
          omega
        rw [hsat, ih (d0 - 1) (by push_cast at h ⊢; omega)]
        rw [opensCount_cons_ne _ _ hc, closesCount_cons_self]
        push_cast
        ring
      · rw [closesCount_cons_ne _ _ hcc] at h
        have hstep : braceStep d0 c = d0 := by simp [braceStep, hc, hcc]
        rw [hstep, ih d0 h]
        rw [opensCount_cons_ne _ _ hc, closesCount_cons_ne _ _ hcc]

theorem update_fn_ctx_depth_eq (raw : List Char)
    (is_match : List Char → Bool) (ctx : FnCtx) :
    (update_fn_ctx raw is_match ctx).depth
      = raw.foldl braceStep (fn_entry_depth raw is_match ctx) := by
  unfold update_fn_ctx fn_entry_depth
  cases hin : ctx.in_function <;> cases hm : is_match raw <;> simp [hin, hm]

/-- C4, counterexample: on the code text consisting of one closing brace,
with depth 0 and no signature match, the scan stores `prev_depth = -1`:
the depth is *not* floored at 0 (`depth: isize` saturates at
`isize::MIN`, not at 0). -/
theorem update_fn_ctx_depth_goes_negative :
    (update_fn_ctx [cbrace] (fun _ => false) {}).prev = -1 ∧
      (update_fn_ctx [cbrace] (fun _ => false) {}).prev < 0 := by
  constructor
  · decide
  · decide

/-- C4 (amended): the depth update of `update_fn_ctx` scans the code text
left-to-right, adds 1 for each opening brace and subtracts 1 for each
closing brace, saturating only at `isize::MIN` (so the depth may become
negative — there is no floor at 0); the resulting depth is stored as
`prev_depth` (= the stored depth). -/
theorem update_fn_ctx_scan_spec :
    ∀ (raw : List Char) (is_match : List Char → Bool) (ctx : FnCtx),
      isizeMin + closesCount raw ≤ fn_entry_depth raw is_match ctx →
      (update_fn_ctx raw is_match ctx).depth
          = fn_entry_depth raw is_match ctx + opensCount raw - closesCount raw
        ∧ (update_fn_ctx raw is_match ctx).prev
          = (update_fn_ctx raw is_match ctx).depth := by
  intro raw is_match ctx h
  refine ⟨?_, rfl⟩
  rw [update_fn_ctx_depth_eq]
  exact braceFold_no_sat raw _ h

/-- Witness for `update_fn_ctx_scan_spec` at the code text `{}`. -/
theorem update_fn_ctx_scan_spec_witness :
    isizeMin + closesCount [obrace, cbrace]
        ≤ fn_entry_depth [obrace, cbrace] (fun _ => false) {}
    ∧ ((update_fn_ctx [obrace, cbrace] (fun _ => false) {}).depth
          = fn_entry_depth [obrace, cbrace] (fun _ => false) {}
            + opensCount [obrace, cbrace] - closesCount [obrace, cbrace]
        ∧ (update_fn_ctx [obrace, cbrace] (fun _ => false) {}).prev
          = (update_fn_ctx [obrace, cbrace] (fun _ => false) {}).depth) :=
  ⟨by decide,
   update_fn_ctx_scan_spec [obrace, cbrace] (fun _ => false) {} (by decide)⟩

/-! ## C8 -/

/-- C8: merging the two per-file records through `Report::add` gives 2
classes, but merging the two partition blocks through `LangStat::add`
gives only 1: `LangStat::add` does not sum the `classes` field, so the
partitioned merge disagrees with the whole-list merge on `classes`
(while agreeing on files, lines, code, comments, blanks and functions). -/
theorem langstat_add_drops_classes :
    (((report_add (report_add report_new fsClassA) fsClassB)
        LangType.Rust).getD (langstat_new LangType.Rust)).classes = 2
    ∧ (langstat_add (singletonLangStat fsClassA)
        (singletonLangStat fsClassB)).classes = 1
    ∧ (langstat_add (singletonLangStat fsClassA)
        (singletonLangStat fsClassB)).files
        = (((report_add (report_add report_new fsClassA) fsClassB)
            LangType.Rust).getD (langstat_new LangType.Rust)).files
    ∧ (langstat_add (singletonLangStat fsClassA)
        (singletonLangStat fsClassB)).lines
        = (((report_add (report_add report_new fsClassA) fsClassB)
            LangType.Rust).getD (langstat_new LangType.Rust)).lines := by
  refine ⟨?_, ?_, ?_, ?_⟩ <;> decide

/-! ## C1 -/

theorem default_lex_step_counts (lang : LangDef)
    (fr : Option (List Char → Bool)) (st : FileStat × LexCtx × FnCtx)
    (raw : List Char) :
    (default_lex_step lang fr st raw).1.lines = st.1.lines + 1 ∧
    (default_lex_step lang fr st raw).1.blanks
        + (default_lex_step lang fr st raw).1.comments
        + (default_lex_step lang fr st raw).1.code
      = st.1.blanks + st.1.comments + st.1.code + 1 := by
  obtain ⟨stat, ctx, fc⟩ := st
  unfold default_lex_step
  repeat' first | split | dsimp only
  all_goals omega

theorem python_lex_step_counts (lang : LangDef)
    (fr : Option (List Char → Bool)) (st : FileStat × LexCtx × PyCtx)
    (raw : List Char) :
    (python_lex_step lang fr st raw).1.lines = st.1.lines + 1 ∧
    (python_lex_step lang fr st raw).1.blanks
        + (python_lex_step lang fr st raw).1.comments
        + (python_lex_step lang fr st raw).1.code
      = st.1.blanks + st.1.comments + st.1.code + 1 := by
  obtain ⟨stat, ctx, py⟩ := st
  unfold python_lex_step
  repeat' first | split | dsimp only
  all_goals omega

theorem default_lex_fold_inv (lang : LangDef)
    (fr : Option (List Char → Bool)) :
    ∀ (lines : List (List Char)) (st : FileStat × LexCtx × FnCtx),
      st.1.lines = st.1.blanks + st.1.comments + st.1.code →
      (lines.foldl (default_lex_step lang fr) st).1.lines
        = (lines.foldl (default_lex_step lang fr) st).1.blanks
          + (lines.foldl (default_lex_step lang fr) st).1.comments
          + (lines.foldl (default_lex_step lang fr) st).1.code := by
  intro lines
  induction lines with
  | nil => intro st h; simpa using h
  | cons raw rest ih =>
    intro st h
    rw [List.foldl_cons]
    apply ih
    have hc := default_lex_step_counts lang fr st raw
    omega

theorem python_lex_fold_inv (lang : LangDef)
    (fr : Option (List Char → Bool)) :
    ∀ (lines : List (List Char)) (st : FileStat × LexCtx × PyCtx),
      st.1.lines = st.1.blanks + st.1.comments + st.1.code →
      (lines.foldl (python_lex_step lang fr) st).1.lines
        = (lines.foldl (python_lex_step lang fr) st).1.blanks
          + (lines.foldl (python_lex_step lang fr) st).1.comments
          + (lines.foldl (python_lex_step lang fr) st).1.code := by
  intro lines
  induction lines with
  | nil => intro st h; simpa using h
  | cons raw rest ih =>
    intro st h
    rw [List.foldl_cons]
    apply ih
    have hc := python_lex_step_counts lang fr st raw
    omega

theorem default_lex_line_invariant (lang : LangDef)
    (fr : Option (List Char → Bool)) (lines : List (List Char)) :
    (default_lex lang fr lines).lines
      = (default_lex lang fr lines).blanks
        + (default_lex lang fr lines).comments
        + (default_lex lang fr lines).code :=
  default_lex_fold_inv lang fr lines ({}, {}, {}) (by simp)

theorem python_lex_line_invariant (lang : LangDef)
    (fr : Option (List Char → Bool)) (lines : List (List Char)) :
    (python_lex lang fr lines).lines
      = (python_lex lang fr lines).blanks
        + (python_lex lang fr lines).comments
        + (python_lex lang fr lines).code :=
  python_lex_fold_inv lang fr lines ({}, {}, {}) (by simp)

theorem default_lexer_lex_inv (reg : Registry) (lt : LangType)
    (lines : List (List Char)) (stat : FileStat) :
    default_lexer_lex reg lt lines = Except.ok stat →
    stat.lines = stat.blanks + stat.comments + stat.code := by
  unfold default_lexer_lex
  cases reg.get_lang_def lt with
  | none => intro h; cases h
  | some d =>
    intro h
    cases h
    exact default_lex_line_invariant d (reg.get_function_regex lt) lines

theorem python_lexer_lex_inv (reg : Registry)
    (lines : List (List Char)) (stat : FileStat) :
    python_lexer_lex reg lines = Except.ok stat →
    stat.lines = stat.blanks + stat.comments + stat.code := by
  unfold python_lexer_lex
  cases reg.get_lang_def LangType.Python with
  | none => intro h; cases h
  | some d =>
    intro h
    cases h
    exact python_lex_line_invariant d (reg.get_function_regex LangType.Python) lines

/-- C1 (amended): for every language other than Markdown, every `FileStat`
successfully produced by the lexer returned by `LexerFactory::get_lexer`
(`DefaultLexer` or `PythonLexer`) satisfies
`lines = blanks + comments + code`.  (`MdLexer` violates the invariant on
every non-empty file: it sets only `lines` — see the counterexample.) -/
theorem lexer_line_count_invariant :
    ∀ (reg : Registry) (lt : LangType), ¬ lt = LangType.Markdown →
      ∀ (lexfn : List (List Char) → Except String FileStat),
        get_lexer reg lt = some lexfn →
        ∀ (lines : List (List Char)) (stat : FileStat),
          lexfn lines = Except.ok stat →
          stat.lines = stat.blanks + stat.comments + stat.code := by
  intro reg lt hmd lexfn hlex lines stat hok
  cases lt <;> simp only [get_lexer] at hlex
  all_goals first
    | exact absurd rfl hmd
    | (cases hlex <;> exact python_lexer_lex_inv reg lines stat hok)
    | (cases hlex <;> exact default_lexer_lex_inv reg _ lines stat hok)

/-- Witness for `lexer_line_count_invariant`: the Rust lexer on a
one-line file. -/
theorem lexer_line_count_invariant_witness :
    (¬ LangType.Rust = LangType.Markdown)
    ∧ get_lexer regW LangType.Rust = some (default_lexer_lex regW LangType.Rust)
    ∧ default_lexer_lex regW LangType.Rust ["ab".toList]
        = Except.ok (default_lex cLikeDef none ["ab".toList])
    ∧ (default_lex cLikeDef none ["ab".toList]).lines
        = (default_lex cLikeDef none ["ab".toList]).blanks
          + (default_lex cLikeDef none ["ab".toList]).comments
          + (default_lex cLikeDef none ["ab".toList]).code :=
  ⟨by decide, rfl, rfl,
   lexer_line_count_invariant regW LangType.Rust (by decide)
     (default_lexer_lex regW LangType.Rust) rfl ["ab".toList]
     (default_lex cLikeDef none ["ab".toList]) rfl⟩

/-- C1, counterexample: `LexerFactory::get_lexer` returns `MdLexer` for
Markdown, and `MdLexer::lex` on a one-line file yields
`lines = 1` but `blanks + comments + code = 0`. -/
theorem md_lexer_breaks_line_invariant :
    get_lexer regW LangType.Markdown = some md_lexer_lex
    ∧ md_lexer_lex [['x']] = Except.ok (md_lex [['x']])
    ∧ ¬ (md_lex [['x']]).lines
        = (md_lex [['x']]).blanks + (md_lex [['x']]).comments
          + (md_lex [['x']]).code :=
  ⟨rfl, rfl, by decide⟩

/-! ## C5 -/

theorem is_binary_file_iff (bytes : List Nat) :
    is_binary_file bytes = true ↔ 0 ∈ bytes.take 1024 := by
  unfold is_binary_file
  have htake : bytes.take (min 1024 bytes.length) = bytes.take 1024 := by
    rcases le_total 1024 bytes.length with h | h
    · rw [min_eq_left h]
    · rw [min_eq_right h, List.take_length, List.take_of_length_le h]
  dsimp only
  rw [htake]
  by_cases h0 : min 1024 bytes.length = 0
  · have hb : bytes = [] := by
      rcases Nat.min_eq_zero_iff.mp h0 with h | h
      · omega
      · exact List.eq_nil_of_length_eq_zero h
    subst hb
    simp
  · simp only [h0, if_neg, if_false]
    simp [List.any_eq_true]

/-- C5: the error taxonomy of `Counter::count`.  For every environment and
path: an extension resolving to no known language yields `LexError`; a
file that cannot be opened yields `IoError`; a file whose first 1024
bytes (or all of them, when shorter) contain a NUL byte yields
`BinaryFile` (before any lexer is consulted); a resolved language with no
lexer strategy yields `LexError`; and on success the `FileStat` is
stamped with the language, path and file name. -/
theorem counter_count_taxonomy :
    ∀ (env : CountEnv) (path : RPath),
      (env.reg.get_type_from_ext (str_to_lowercase (path.extension.getD "")) = none →
        counter_count env path
          = Except.error (CounterError.LexError
              ("Unknown language for extension: "
                ++ str_to_lowercase (path.extension.getD ""))))
      ∧ (∀ lt, env.reg.get_type_from_ext (str_to_lowercase (path.extension.getD "")) = some lt →
          ∀ m, env.open_file path = Except.error m →
            counter_count env path = Except.error (CounterError.IoError m))
      ∧ (∀ lt, env.reg.get_type_from_ext (str_to_lowercase (path.extension.getD "")) = some lt →
          ∀ bytes, env.open_file path = Except.ok bytes →
            0 ∈ bytes.take 1024 →
            counter_count env path = Except.error CounterError.BinaryFile)
      ∧ (∀ lt, env.reg.get_type_from_ext (str_to_lowercase (path.extension.getD "")) = some lt →
          ∀ bytes, env.open_file path = Except.ok bytes →
            ¬ 0 ∈ bytes.take 1024 →
            get_lexer env.reg lt = none →
            counter_count env path
              = Except.error (CounterError.LexError "Unknown language"))
      ∧ (∀ lt, env.reg.get_type_from_ext (str_to_lowercase (path.extension.getD "")) = some lt →
          ∀ bytes, env.open_file path = Except.ok bytes →
            ¬ 0 ∈ bytes.take 1024 →
            ∀ lexer, get_lexer env.reg lt = some lexer →
              ∀ stat, lexer (env.decode_lines bytes) = Except.ok stat →
                counter_count env path
                  = Except.ok { stat with
                      lang := lt
                      path := path.display
                      name := path.file_name.getD "" }) := by
  intro env path
  refine ⟨?_, ?_, ?_, ?_, ?_⟩
  · intro h
    unfold counter_count
    dsimp only
    rw [h]
  · intro lt hlt m hio
    unfold counter_count
    dsimp only
    rw [hlt, hio]
  · intro lt hlt bytes hopen hnul
    unfold counter_count
    dsimp only
    rw [hlt, hopen]
    have hb : is_binary_file bytes = true := (is_binary_file_iff bytes).mpr hnul
    simp [hb]
  · intro lt hlt bytes hopen hnul hlex
    unfold counter_count
    dsimp only
    rw [hlt, hopen]
    have hbin : is_binary_file bytes = false := by
      rcases Bool.eq_false_or_eq_true (is_binary_file bytes) with h | h
      · exact absurd ((is_binary_file_iff bytes).mp h) hnul
      · exact h
    simp [hbin, hlex]
  · intro lt hlt bytes hopen hnul lexer hlex stat hok
    unfold counter_count
    dsimp only
    rw [hlt, hopen]
    have hbin : is_binary_file bytes = false := by
      rcases Bool.eq_false_or_eq_true (is_binary_file bytes) with h | h
      · exact absurd ((is_binary_file_iff bytes).mp h) hnul
      · exact h
    simp [hbin, hlex, hok]

/-- Witness for `counter_count_taxonomy`: each of the five clauses applied
at a concrete path of `envW`. -/
theorem counter_count_taxonomy_witness :
    counter_count envW pZZ
        = Except.error (CounterError.LexError "Unknown language for extension: zz")
    ∧ counter_count envW pIO = Except.error (CounterError.IoError "boom")
    ∧ counter_count envW pBin = Except.error CounterError.BinaryFile
    ∧ counter_count envW pUU = Except.error (CounterError.LexError "Unknown language")
    ∧ counter_count envW pOk
        = Except.ok { default_lex cLikeDef none [['a', 'b']] with
            lang := LangType.Rust, path := "a.rs", name := "a.rs" } := by
  refine ⟨?_, ?_, ?_, ?_, ?_⟩
  · exact (counter_count_taxonomy envW pZZ).1 (by decide)
  · exact (counter_count_taxonomy envW pIO).2.1 LangType.Rust (by decide) "boom" rfl
  · exact (counter_count_taxonomy envW pBin).2.2.1 LangType.Rust (by decide) [65, 0, 66] rfl (by decide)
  · exact (counter_count_taxonomy envW pUU).2.2.2.1 LangType.Unknown (by decide) [65, 66] rfl (by decide) rfl
  · exact (counter_count_taxonomy envW pOk).2.2.2.2 LangType.Rust (by decide) [65, 66] rfl (by decide)
      (default_lexer_lex envW.reg LangType.Rust) rfl
      (default_lex cLikeDef none [['a', 'b']]) rfl

/-! ## C6 -/

theorem file_counter_drain_skip (l1 : List (Except String (Option FileStat)))
    (l2 : List (Except String (Option FileStat))) :
    ∀ report, file_counter_drain report (l1 ++ Except.ok none :: l2)
      = file_counter_drain report (l1 ++ l2) := by
  induction l1 with
  | nil => intro report; rfl
  | cons x t ih =>
    intro report
    rcases x with e | os
    · rfl
    · rcases os with _ | stat
      · exact ih report
      · exact ih (report_add report stat)

theorem file_counter_drain_first_error
    (l1 : List (Except String (Option FileStat))) (e : String)
    (l2 : List (Except String (Option FileStat))) :
    (∀ x ∈ l1, ∃ y, x = Except.ok y) →
    ∀ report, file_counter_drain report (l1 ++ Except.error e :: l2)
      = Except.error e := by
  induction l1 with
  | nil => intro _ report; rfl
  | cons x t ih =>
    intro h report
    rcases h x (List.mem_cons_self x t) with ⟨y, rfl⟩
    have ht : ∀ x ∈ t, ∃ y, x = Except.ok y :=
      fun x hx => h x (List.mem_cons_of_mem _ hx)
    rcases y with _ | stat
    · exact ih ht report
    · exact ih ht (report_add report stat)

/-- C6: draining in `FileCounter::process` is serial in submission order.
A `BinaryFile` result is skipped (the file contributes nothing and the
run continues as if it were absent), while the first result carrying any
other error aborts the whole run with that error's message, whatever
comes after it (later results are neither merged nor inspected: the
output does not depend on them). -/
theorem sync_drain_error_policy :
    ∀ {P : Type} (pre post : List P) (p0 : P)
      (count : P → Except CounterError FileStat) (dbg : P → String),
      (count p0 = Except.error CounterError.BinaryFile →
        file_counter_process (pre ++ p0 :: post) count dbg
          = file_counter_process (pre ++ post) count dbg)
      ∧ (∀ e, count p0 = Except.error e → ¬ e = CounterError.BinaryFile →
          (∀ q ∈ pre, ∀ e2, count q = Except.error e2 →
            e2 = CounterError.BinaryFile) →
          file_counter_process (pre ++ p0 :: post) count dbg
            = Except.error (sync_err_msg (dbg p0) e)) := by
  intro P pre post p0 count dbg
  constructor
  · intro hbin
    unfold file_counter_process
    rw [List.map_append, List.map_cons, List.map_append]
    rw [show count_result_to_sync (dbg p0) (count p0) = Except.ok none by
      rw [hbin]; rfl]
    exact file_counter_drain_skip _ _ report_new
  · intro e he hne hpre
    unfold file_counter_process
    rw [List.map_append, List.map_cons]
    have hmap : count_result_to_sync (dbg p0) (count p0)
        = Except.error (sync_err_msg (dbg p0) e) := by
      rw [he]
      rcases e with m | m | _
      · rfl
      · rfl
      · exact absurd rfl hne
    rw [hmap]
    apply file_counter_drain_first_error
    intro x hx
    rcases List.mem_map.mp hx with ⟨q, hq, rfl⟩
    rcases hcq : count q with e2 | stat
    · have : e2 = CounterError.BinaryFile := hpre q hq e2 hcq
      subst this
      exact ⟨none, rfl⟩
    · exact ⟨some stat, rfl⟩

/-- Witness for `sync_drain_error_policy`: a binary file at position 1 is
dropped, and an `IoError` at position 1 aborts the run with its message
even though position 2 would have succeeded. -/
theorem sync_drain_error_policy_witness :
    file_counter_process ([0] ++ 1 :: [2]) countBinW (fun p => toString p)
        = file_counter_process ([0] ++ [2]) countBinW (fun p => toString p)
    ∧ file_counter_process ([0] ++ 1 :: [2]) countW (fun p => toString p)
        = Except.error (sync_err_msg (toString 1) (CounterError.IoError "boom")) := by
  constructor
  · exact (sync_drain_error_policy [0] [2] 1 countBinW (fun p => toString p)).1 rfl
  · refine (sync_drain_error_policy [0] [2] 1 countW (fun p => toString p)).2
      (CounterError.IoError "boom") rfl (by decide) ?_
    intro q hq e2 h2
    rcases List.mem_singleton.mp hq with rfl
    cases h2

/-! ## C7 -/

/-- C7 (amended): outside a block comment, for a line that does not start
with the line-comment token and that contains the block-comment open
delimiter with a matching close delimiter after it, `classify` returns
`Comment` when the whole line consists only of the delimited comment
(open at position 0 and close ending the line), and otherwise `Mixed`
whose code span starts at the open-delimiter position plus the length of
the *close* delimiter — not just after the close delimiter — and extends
to the end of the line. -/
theorem classify_block_span :
    ∀ (lang : LangDef) (ctx : LexCtx) (s bcS bcE : List Char)
      (pos epos : Nat),
      ctx.in_block_comment = false →
      lang.block_comment = some (bcS, bcE) →
      (∀ lc, lang.line_comment = some lc → lc.isPrefixOf s = false) →
      ¬ s = [] →
      findSub s bcS = some pos →
      findSub (s.drop (pos + bcS.length)) bcE = some epos →
      classify_default lang ctx s =
        (if epos + bcE.length = (s.drop (pos + bcS.length)).length ∧ pos = 0
         then ((LineKind.Comment, none), ctx)
         else ((LineKind.Mixed, some (pos + bcE.length, s.length)), ctx)) := by
  intro lang ctx s bcS bcE pos epos hctx hbc hlc hS hpos hepos
  unfold classify_default
  rw [if_neg hS, hctx]
  show classify_default_line lang ctx s = _
  unfold classify_default_line
  rcases hlo : lang.line_comment with _ | lc
  · show classify_default_block lang ctx s = _
    unfold classify_default_block
    rw [hbc]
    dsimp only
    rw [hpos]
    dsimp only
    rw [hepos]
  · dsimp only
    rw [hlc lc hlo]
    show classify_default_block lang ctx s = _
    unfold classify_default_block
    rw [hbc]
    dsimp only
    rw [hpos]
    dsimp only
    rw [hepos]

/-- Witness for `classify_block_span` on the line `q /* c */`: the open
delimiter is at 2, the close at relative position 3, and the result is a
`Mixed` span (4, 9) — position 4 is `pos + close.len`, squarely inside
the comment text. -/
theorem classify_block_span_witness :
    classify_default cLikeDef {} "q /* c */".toList
      = (if (3 : Nat) + (['*', '/'] : List Char).length
              = ("q /* c */".toList.drop (2 + (['/', '*'] : List Char).length)).length
            ∧ (2 : Nat) = 0
         then ((LineKind.Comment, none), ({} : LexCtx))
         else ((LineKind.Mixed,
                some (2 + (['*', '/'] : List Char).length, "q /* c */".toList.length)),
               ({} : LexCtx))) :=
  classify_block_span cLikeDef {} "q /* c */".toList ['/', '*'] ['*', '/'] 2 3
    rfl rfl
    (by intro lc h; injection h with h2; subst h2; decide)
    (by decide) (by decide) (by decide)

/-- C7, counterexample: on `a /* c */ b` (open at 2, close at relative 3,
trailing code `b`), the source returns the Mixed span (4, 11), whereas a
span starting just after the close delimiter would start at
2 + 2 + 3 + 2 = 9. -/
theorem classify_block_span_counterexample :
    classify_default cLikeDef {} "a /* c */ b".toList
      = ((LineKind.Mixed, some (4, 11)), {})
    ∧ findSub "a /* c */ b".toList ['/', '*'] = some 2
    ∧ findSub ("a /* c */ b".toList.drop (2 + 2)) ['*', '/'] = some 3
    ∧ ¬ (4 : Nat) = 2 + 2 + 3 + 2 := by
  refine ⟨by decide, by decide, by decide, by decide⟩

/-! ## C10 -/

mutual

theorem walk_entry_paths_extend (cfg : Config) (root : RawPath) :
    ∀ (t : FsEntry) (sp : RawPath) (pd : RawPath × Bool),
      pd ∈ walk_entry cfg root t sp → ∃ rest, pd.1 = sp ++ rest
  | FsEntry.file n, sp, pd, h => by
    unfold walk_entry at h
    split at h
    · rcases List.mem_singleton.mp h with rfl
      exact ⟨[], by simp⟩
    · cases h
  | FsEntry.dir n cs, sp, pd, h => by
    unfold walk_entry at h
    split at h
    · rcases List.mem_cons.mp h with heq | h2
      · rcases heq with rfl
        exact ⟨[], by simp⟩
      · rcases walk_children_paths_extend cfg root cs sp pd h2 with ⟨rest, hr⟩
        exact ⟨rest, hr⟩
    · cases h

theorem walk_children_paths_extend (cfg : Config) (root : RawPath) :
    ∀ (cs : List FsEntry) (parent : RawPath) (pd : RawPath × Bool),
      pd ∈ walk_children cfg root cs parent → ∃ rest, pd.1 = parent ++ rest
  | [], _, _, h => by cases h
  | c :: cs, parent, pd, h => by
    unfold walk_children at h
    rcases List.mem_append.mp h with h1 | h2
    · rcases walk_entry_paths_extend cfg root c (parent ++ [c.entry_name]) pd h1
        with ⟨rest, hr⟩
      exact ⟨c.entry_name :: rest, by simpa using hr⟩
    · exact walk_children_paths_extend cfg root cs parent pd h2

end

theorem include_entry_no_hidden_component (cfg : Config) (reg : Registry)
    (p : RawPath) (d : Bool) :
    include_entry cfg reg p d = true →
    ∀ comp ∈ p, starts_with_str comp "." = false := by
  intro h comp hc
  rcases Bool.eq_false_or_eq_true (starts_with_str comp ".") with htrue | hfalse
  · have hany : p.any (fun comp => starts_with_str comp ".") = true :=
      List.any_eq_true.mpr ⟨comp, hc, htrue⟩
    cases d
    · unfold include_entry at h
      rw [if_neg (by simp)] at h
      rw [if_pos hany] at h
      cases h
    · unfold include_entry at h
      rw [if_pos rfl] at h
      cases h
  · exact hfalse

/-- C10: `FileReader::walk_dir` keeps a file only if no component of its
full path (the root path's own components included) starts with `'.'`; in
particular for the relative root path `"."` — the default of
`Config::new` — every yielded entry path begins with the component `"."`,
so the walk returns the empty file list on every tree. -/
theorem walk_dir_hidden_filter_and_dot_root :
    (∀ (cfg : Config) (reg : Registry) (rootPath : RawPath) (t : FsEntry),
      ∀ p ∈ walk_dir cfg reg rootPath t,
        ∀ comp ∈ p, starts_with_str comp "." = false)
    ∧ (∀ (cfg : Config) (reg : Registry) (t : FsEntry),
        walk_dir cfg reg ["."] t = [])
    ∧ config_new.paths = ["."] := by
  refine ⟨?_, ?_, rfl⟩
  · intro cfg reg rootPath t p hp
    unfold walk_dir at hp
    rcases List.mem_map.mp hp with ⟨pd, hpd, rfl⟩
    have hinc := (List.mem_filter.mp hpd).2
    exact include_entry_no_hidden_component cfg reg pd.1 pd.2 hinc
  · intro cfg reg t
    unfold walk_dir
    rw [List.filter_eq_nil_iff.mpr, List.map_nil]
    intro pd hpd
    rcases walk_entry_paths_extend cfg ["."] t ["."] pd hpd with ⟨rest, hr⟩
    intro hinc
    have := include_entry_no_hidden_component cfg reg pd.1 pd.2 hinc "."
      (by rw [hr]; exact List.mem_append_left _ (List.mem_singleton_self "."))
    rw [show (starts_with_str "." ".") = true by decide] at this
    cases this

/-- Witness for `walk_dir_hidden_filter_and_dot_root`: under the root
path `src` the Rust file is yielded and its components are dot-free,
while under the root path `"."` the same tree yields nothing. -/
theorem walk_dir_hidden_filter_witness :
    (["src", "a.rs"] ∈ walk_dir cfgW regW ["src"] tree0
      ∧ starts_with_str "src" "." = false
      ∧ starts_with_str "a.rs" "." = false)
    ∧ walk_dir cfgW regW ["."] tree0 = [] := by
  refine ⟨⟨by decide, ?_, ?_⟩, ?_⟩
  · exact walk_dir_hidden_filter_and_dot_root.1 cfgW regW ["src"] tree0
      ["src", "a.rs"] (by decide) "src" (by decide)
  · exact walk_dir_hidden_filter_and_dot_root.1 cfgW regW ["src"] tree0
      ["src", "a.rs"] (by decide) "a.rs" (by decide)
  · exact walk_dir_hidden_filter_and_dot_root.2.1 cfgW regW tree0

/-! ## C2 -/

theorem report_add_apply_eq (r : Report) (stat : FileStat) (lt : LangType)
    (h : lt = stat.lang) :
    (report_add r stat) lt
      = some (let ls := (r stat.lang).getD (langstat_new stat.lang)
              { ls with
                files := ls.files + 1
                lines := ls.lines + stat.lines
                code := ls.code + stat.code
                comments := ls.comments + stat.comments
                blanks := ls.blanks + stat.blanks
                functions := ls.functions + stat.functions
                classes := ls.classes + stat.classes
                stats := ls.stats ++ [stat] }) := by
  unfold report_add
  rw [if_pos h]

theorem report_add_apply_ne (r : Report) (stat : FileStat) (lt : LangType)
    (h : ¬ lt = stat.lang) :
    (report_add r stat) lt = r lt := by
  unfold report_add
  rw [if_neg h]

theorem report_add_totals_congr (r1 r2 : Report) (stat : FileStat)
    (h : ∀ lt, lang_totals r1 lt = lang_totals r2 lt) :
    ∀ lt, lang_totals (report_add r1 stat) lt
      = lang_totals (report_add r2 stat) lt := by
  intro lt
  by_cases hlt : lt = stat.lang
  · have hs := h stat.lang
    unfold lang_totals at hs ⊢
    rw [report_add_apply_eq r1 stat lt hlt, report_add_apply_eq r2 stat lt hlt]
    rcases h1 : r1 stat.lang with _ | ls1 <;> rcases h2 : r2 stat.lang with _ | ls2
    · rfl
    · rw [h1, h2] at hs; simp at hs
    · rw [h1, h2] at hs; simp at hs
    · rw [h1, h2] at hs
      simp only [Option.map_some', Option.some.injEq, Prod.mk.injEq] at hs
      obtain ⟨e1, e2, e3, e4, e5, e6, e7⟩ := hs
      simp only [Option.map_some', Option.some.injEq, Prod.mk.injEq,
        Option.getD_some]
      refine ⟨?_, ?_, ?_, ?_, ?_, ?_, ?_⟩ <;> omega
  · unfold lang_totals
    rw [report_add_apply_ne r1 stat lt hlt, report_add_apply_ne r2 stat lt hlt]
    exact h lt

theorem report_add_add_swap_totals (r : Report) (x y : FileStat) :
    ∀ lt, lang_totals (report_add (report_add r x) y) lt
      = lang_totals (report_add (report_add r y) x) lt := by
  intro lt
  by_cases h1 : lt = x.lang <;> by_cases h2 : lt = y.lang
  · -- lt is the shared key of x and y
    have hyx : y.lang = x.lang := h2.symm.trans h1
    unfold lang_totals
    rw [report_add_apply_eq _ y lt h2, report_add_apply_eq _ x lt h1]
    rw [report_add_apply_eq r x y.lang hyx, report_add_apply_eq r y x.lang hyx.symm]
    rw [hyx]
    rcases hr : r x.lang with _ | ls <;>
      · simp only [Option.map_some', Option.some.injEq, Prod.mk.injEq,
          Option.getD_some, Option.getD_none]
        refine ⟨?_, ?_, ?_, ?_, ?_, ?_, ?_⟩ <;> first | trivial | omega
  · have hxy : ¬ x.lang = y.lang := fun hh => h2 (h1.trans hh)
    unfold lang_totals
    rw [report_add_apply_ne _ y lt h2, report_add_apply_eq _ x lt h1,
      report_add_apply_eq _ x lt h1, report_add_apply_ne r y x.lang hxy]
  · have hxy : ¬ y.lang = x.lang := fun hh => h1 (h2.trans hh)
    unfold lang_totals
    rw [report_add_apply_eq _ y lt h2, report_add_apply_ne _ x lt h1,
      report_add_apply_eq _ y lt h2, report_add_apply_ne r x y.lang hxy]
  · unfold lang_totals
    rw [report_add_apply_ne _ y lt h2, report_add_apply_ne _ x lt h1,
      report_add_apply_ne _ x lt h1, report_add_apply_ne _ y lt h2]

theorem fold_report_add_totals_congr :
    ∀ (l : List FileStat) (r1 r2 : Report),
      (∀ lt, lang_totals r1 lt = lang_totals r2 lt) →
      ∀ lt, lang_totals (l.foldl report_add r1) lt
        = lang_totals (l.foldl report_add r2) lt := by
  intro l
  induction l with
  | nil => intro r1 r2 h lt; exact h lt
  | cons x t ih =>
    intro r1 r2 h lt
    rw [List.foldl_cons, List.foldl_cons]
    exact ih (report_add r1 x) (report_add r2 x)
      (report_add_totals_congr r1 r2 x h) lt

theorem perm_fold_report_totals (l1 l2 : List FileStat) (hp : l1.Perm l2) :
    ∀ (r : Report) (lt : LangType),
      lang_totals (l1.foldl report_add r) lt
        = lang_totals (l2.foldl report_add r) lt := by
  induction hp with
  | nil => intro r lt; rfl
  | cons x _ ih =>
    intro r lt
    rw [List.foldl_cons, List.foldl_cons]
    exact ih (report_add r x) lt
  | swap x y l =>
    intro r lt
    rw [List.foldl_cons, List.foldl_cons, List.foldl_cons, List.foldl_cons]
    exact fold_report_add_totals_congr l _ _
      (report_add_add_swap_totals r y x) lt
  | trans _ _ ih1 ih2 =>
    intro r lt
    exact (ih1 r lt).trans (ih2 r lt)

theorem file_counter_process_ok {P : Type}
    (count : P → Except CounterError FileStat) (dbg : P → String) :
    ∀ (paths : List P) (report : Report),
      (∀ p ∈ paths, count p = Except.error CounterError.BinaryFile
        ∨ ∃ s, count p = Except.ok s) →
      file_counter_drain report
          (paths.map (fun p => count_result_to_sync (dbg p) (count p)))
        = Except.ok ((async_successes paths count).foldl report_add report) := by
  intro paths
  induction paths with
  | nil => intro report _; rfl
  | cons p t ih =>
    intro report h
    have ht : ∀ q ∈ t, count q = Except.error CounterError.BinaryFile
        ∨ ∃ s, count q = Except.ok s :=
      fun q hq => h q (List.mem_cons_of_mem _ hq)
    rcases h p (List.mem_cons_self p t) with hbin | ⟨s, hok⟩
    · have hmap : count_result_to_sync (dbg p) (count p) = Except.ok none := by
        rw [hbin]; rfl
      rw [List.map_cons, hmap]
      have hsucc : async_successes (p :: t) count = async_successes t count := by
        unfold async_successes
        rw [List.filterMap_cons, hbin]
      rw [hsucc]
      exact ih report ht
    · have hmap : count_result_to_sync (dbg p) (count p) = Except.ok (some s) := by
        rw [hok]; rfl
      rw [List.map_cons, hmap]
      have hsucc : async_successes (p :: t) count
          = s :: async_successes t count := by
        unfold async_successes
        rw [List.filterMap_cons, hok]
      rw [hsucc, List.foldl_cons]
      exact ih (report_add report s) ht

/-- C2 (amended): on runs where every per-file outcome is a success or a
`BinaryFile` skip (no `IoError`/`LexError` — on those the source sync
pipeline aborts while the async pipeline logs and continues, see the
counterexample), the sync pipeline returns a report whose per-language
aggregate totals (files, lines, code, comments, blanks, functions,
classes) coincide with those of the async pipeline's report, whatever
merge order the async scheduler produced (any permutation of the
successful records — in particular for every worker count). -/
theorem sync_async_totals_agree :
    ∀ {P : Type} (paths : List P)
      (count : P → Except CounterError FileStat) (dbg : P → String)
      (merged : List FileStat),
      (∀ p ∈ paths, count p = Except.error CounterError.BinaryFile
        ∨ ∃ s, count p = Except.ok s) →
      merged.Perm (async_successes paths count) →
      ∃ r, file_counter_process paths count dbg = Except.ok r
        ∧ ∀ lt, lang_totals (async_report merged) lt = lang_totals r lt := by
  intro P paths count dbg merged h hperm
  refine ⟨(async_successes paths count).foldl report_add report_new, ?_, ?_⟩
  · unfold file_counter_process
    exact file_counter_process_ok count dbg paths report_new h
  · intro lt
    exact perm_fold_report_totals merged (async_successes paths count) hperm
      report_new lt

/-- Witness for `sync_async_totals_agree`: two files, the second binary. -/
theorem sync_async_totals_agree_witness :
    ∃ r, file_counter_process [0, 1] countBinW (fun p => toString p)
        = Except.ok r
      ∧ ∀ lt, lang_totals (async_report [fsClassA]) lt = lang_totals r lt :=
  sync_async_totals_agree [0, 1] countBinW (fun p => toString p) [fsClassA]
    (by
      intro p hp
      rcases List.mem_cons.mp hp with rfl | hp2
      · exact Or.inr ⟨fsClassA, rfl⟩
      · rcases List.mem_singleton.mp hp2 with rfl
        exact Or.inl rfl)
    (List.Perm.refl _)

/-- C2, counterexample to the unconditional claim: on a tree whose one
file fails with an `IoError`, the sync pipeline aborts and produces no
report at all, while the async pipeline logs, skips the file, and
produces the empty report — so the two runs do not produce reports with
identical totals. -/
theorem sync_async_divergence_on_error :
    file_counter_process [0] countErrW (fun _ => "p0")
        = Except.error (sync_err_msg "p0" (CounterError.IoError "boom"))
    ∧ async_successes [0] countErrW = []
    ∧ lang_totals (async_report []) LangType.Rust = none :=
  ⟨rfl, rfl, rfl⟩

/-! ## C3 -/

theorem spec_fn_enter_scan_eq (is_match : List Char → Bool) (t : List Char)
    (fc : FnCtx) : spec_fn_enter_scan is_match t fc = update_fn_ctx t is_match fc := by
  unfold spec_fn_enter_scan update_fn_ctx
  cases hin : fc.in_function <;> cases hm : is_match t <;> simp [hin, hm]

theorem credit_functions (s : FileStat) (fc2 : FnCtx) :
    (if fc2.in_function then { s with functions := s.functions + 1 } else s).functions
      = s.functions + (if fc2.in_function then 1 else 0) := by
  cases h : fc2.in_function <;> simp [h]

theorem default_lex_step_fn (lang : LangDef) (rx : List Char → Bool)
    (stat : FileStat) (ctx : LexCtx) (fc : FnCtx) (raw : List Char) :
    (default_lex_step lang (some rx) (stat, ctx, fc) raw).2.2
        = (match
            (match (classify_default lang ctx (trimL raw)).1.1,
                   (classify_default lang ctx (trimL raw)).1.2 with
             | LineKind.Code, _ => some (trimL raw)
             | LineKind.Mixed, some se =>
               some (((trimL raw).drop se.1).take (se.2 - se.1))
             | _, _ => none : Option (List Char)) with
           | some t => update_fn_ctx t rx
               (if fc.in_function ∧ fc.prev = 0 then
                 { fc with in_function := false } else fc)
           | none =>
               (if fc.in_function ∧ fc.prev = 0 then
                 { fc with in_function := false } else fc))
    ∧ (default_lex_step lang (some rx) (stat, ctx, fc) raw).2.1
        = (classify_default lang ctx (trimL raw)).2
    ∧ (default_lex_step lang (some rx) (stat, ctx, fc) raw).1.functions
        = stat.functions
          + (if ((default_lex_step lang (some rx) (stat, ctx, fc) raw).2.2).in_function
             then 1 else 0) := by
  rcases hres : classify_default lang ctx (trimL raw) with ⟨⟨kind, pos⟩, ctx2⟩
  unfold default_lex_step
  dsimp only
  rw [hres]
  dsimp only
  cases kind <;> cases pos
  all_goals refine ⟨?_, ?_, ?_⟩
  all_goals first
    | rfl
    | exact credit_functions _ _

theorem spec_functions_count_cons (is_match : List Char → Bool) (fc : FnCtx)
    (ct : Option (List Char)) (rest : List (Option (List Char))) :
    spec_functions_count is_match fc (ct :: rest)
      = (let fc1 :=
           if fc.in_function ∧ fc.prev = 0 then { fc with in_function := false }
           else fc
         let fc2 :=
           match ct with
           | some t => spec_fn_enter_scan is_match t fc1
           | none => fc1
         (if fc2.in_function then 1 else 0)
           + spec_functions_count is_match fc2 rest) := rfl

theorem default_lex_functions_spec_fold (lang : LangDef)
    (rx : List Char → Bool) :
    ∀ (lines : List (List Char)) (stat : FileStat) (ctx : LexCtx) (fc : FnCtx),
      ((lines.foldl (default_lex_step lang (some rx)) (stat, ctx, fc)).1).functions
        = stat.functions
          + spec_functions_count rx fc (code_texts lang ctx lines) := by
  intro lines
  induction lines with
  | nil => intro stat ctx fc; simp [spec_functions_count, code_texts]
  | cons raw rest ih =>
    intro stat ctx fc
    rw [List.foldl_cons]
    obtain ⟨hfc, hctx, hfn⟩ := default_lex_step_fn lang rx stat ctx fc raw
    have hstep :
        default_lex_step lang (some rx) (stat, ctx, fc) raw
          = ((default_lex_step lang (some rx) (stat, ctx, fc) raw).1,
             (default_lex_step lang (some rx) (stat, ctx, fc) raw).2.1,
             (default_lex_step lang (some rx) (stat, ctx, fc) raw).2.2) := rfl
    rw [hstep]
    rw [ih]
    rw [hfn, hctx, hfc]
    show _ = stat.functions + spec_functions_count rx fc (code_texts lang ctx (raw :: rest))
    rw [code_texts]
    rw [spec_functions_count_cons]
    dsimp only
    simp only [spec_fn_enter_scan_eq]
    omega

/-- C3: under the brace-depth policy, the `functions` total of
`DefaultLexer::lex` is exactly the number of lines credited by the
spec-side tracker: function mode is entered on a signature match of a
line's code text, the line is credited whenever the tracker is in
function mode at the end of processing it, and function mode is exited at
the start of the next line when `prev_depth = 0` — so every line from a
matched signature through the line whose scan returns the depth to 0
(its closing brace) is credited, and the line after it is not. -/
theorem default_lex_functions_follow_spec :
    ∀ (lang : LangDef) (rx : List Char → Bool) (lines : List (List Char)),
      (default_lex lang (some rx) lines).functions
        = spec_functions_count rx {} (code_texts lang {} lines) := by
  intro lang rx lines
  unfold default_lex
  rw [default_lex_functions_spec_fold lang rx lines {} {} {}]
  simp

end Toukei
